import Mathlib

/-!
Shallow embedding of the audio-ingestion pipeline of the
voice-recording-summary repository, together with proofs settling the
claims about it.

Buffers (Node.js `Buffer`) are modelled as `List Nat`, one entry per byte.
Node's `buffer.toString("ascii", a, b)` unsets the highest bit of every
byte before decoding, so the decoded slice is modelled as the byte slice
taken modulo 128.  Fallible functions return `Except`/`Option`; a thrown
JavaScript `Error` is an `Except.error`.  The external collaborators
(AMR codec, OpenAI transcription and chat services) are passed in as
oracle parameters, exactly as the spec treats them as external services.
-/

set_option autoImplicit false

namespace VoicePipeline

/-- Byte of the buffer at index `i` (bytes past the end read as 0; every
use below is guarded by the same length checks the source performs). -/
def byteAt (buffer : List Nat) (i : Nat) : Nat := buffer.getD i 0

/-- Models `buffer.toString("ascii", a, b)` as the list of decoded char
codes: the byte slice `[a, b)` with the highest bit of each byte unset
(Node's `ascii` decoding masks each byte with `0x7F`). -/
def asciiSlice (buffer : List Nat) (a b : Nat) : List Nat :=
  ((buffer.take b).drop a).map (fun x => x % 128)

/-- Models `buffer.readUInt16LE(offset)`. -/
def readUInt16LE (buffer : List Nat) (offset : Nat) : Nat :=
  byteAt buffer offset + 256 * byteAt buffer (offset + 1)

/-- Models `buffer.readUInt32LE(offset)`. -/
def readUInt32LE (buffer : List Nat) (offset : Nat) : Nat :=
  byteAt buffer offset + 256 * byteAt buffer (offset + 1) +
    65536 * byteAt buffer (offset + 2) + 16777216 * byteAt buffer (offset + 3)

/-- Models `buffer.readUInt32BE(offset)`. -/
def readUInt32BE (buffer : List Nat) (offset : Nat) : Nat :=
  16777216 * byteAt buffer offset + 65536 * byteAt buffer (offset + 1) +
    256 * byteAt buffer (offset + 2) + byteAt buffer (offset + 3)

/-- Models `buffer.subarray(a, b)` (clamping, as in JavaScript). -/
def subarray (buffer : List Nat) (a b : Nat) : List Nat :=
  (buffer.take b).drop a

/-- The char codes of the 6-byte AMR magic string `"#!AMR\n"`
(`AMR_HEADER` in `extract3gpAmr.ts`). -/
def amrMagic : List Nat := [35, 33, 65, 77, 82, 10]

/-- The char codes of `"ftyp"`. -/
def ftypTag : List Nat := [102, 116, 121, 112]

/-- The char codes of `"mdat"`. -/
def mdatTag : List Nat := [109, 100, 97, 116]

/-- `isAmrFile` from `audioProcessing.ts`:
`buffer.length >= 6 && buffer.toString("ascii", 0, 6) === "#!AMR\n"`. -/
def isAmrFile (buffer : List Nat) : Bool :=
  decide (6 ≤ buffer.length) && decide (asciiSlice buffer 0 6 = amrMagic)

/-- `isMp4Container` from `audioProcessing.ts`:
`buffer.length >= 8 && buffer.toString("ascii", 4, 8) === "ftyp"`. -/
def isMp4Container (buffer : List Nat) : Bool :=
  decide (8 ≤ buffer.length) && decide (asciiSlice buffer 4 8 = ftypTag)

/-- `WAV_HEADER_SIZE` from `audioProcessing.ts`. -/
def wavHeaderSize : Nat := 44

/-- Two little-endian bytes of `n`, as written by `writeUInt16LE`. -/
def u16le (n : Nat) : List Nat := [n % 256, n / 256 % 256]

/-- Four little-endian bytes of `n`, as written by `writeUInt32LE`. -/
def u32le (n : Nat) : List Nat :=
  [n % 256, n / 256 % 256, n / 65536 % 256, n / 16777216 % 256]

/-- Models Node's `ERR_OUT_OF_RANGE`, thrown by
`Buffer.writeUInt16LE`/`Buffer.writeUInt32LE` when the written value does
not fit the target field.  (Node also throws it for non-integer values;
every value in this Nat embedding is an integer — see the
`bitsPerSample / 8` note at `splitWavIntoChunks`.) -/
inductive WriteError where
  | outOfRange (value : Nat)
deriving DecidableEq

/-- Models `header.writeUInt16LE(value, offset)`: the two little-endian
bytes written, or `ERR_OUT_OF_RANGE` when `value > 0xFFFF`. -/
def writeUInt16LE (value : Nat) : Except WriteError (List Nat) :=
  if 65535 < value then .error (.outOfRange value) else .ok (u16le value)

/-- Models `header.writeUInt32LE(value, offset)`: the four little-endian
bytes written, or `ERR_OUT_OF_RANGE` when `value > 0xFFFFFFFF`. -/
def writeUInt32LE (value : Nat) : Except WriteError (List Nat) :=
  if 4294967295 < value then .error (.outOfRange value) else .ok (u32le value)

/-- The byte layout of the 44-byte chunk header when every write is in
range, for stating what `makeWavHeader` produces in that case. -/
def wavHeaderBytes (numChannels sampleRate bitsPerSample blockAlign chunkPcmSize : Nat) :
    List Nat :=
  [82, 73, 70, 70] ++ u32le (wavHeaderSize + chunkPcmSize - 8) ++
    [87, 65, 86, 69] ++ [102, 109, 116, 32] ++ u32le 16 ++ u16le 1 ++
    u16le numChannels ++ u32le sampleRate ++ u32le (sampleRate * blockAlign) ++
    u16le blockAlign ++ u16le bitsPerSample ++ [100, 97, 116, 97] ++ u32le chunkPcmSize

/-- The 44-byte header synthesized for each chunk in `splitWavIntoChunks`
(lines 44-58 of `audioProcessing.ts`): `"RIFF"`, file size minus 8,
`"WAVE"`, `"fmt "`, subchunk size 16, PCM format 1, the channel count,
sample rate, byte rate, block align and bits per sample read from the
input header, `"data"`, and the chunk's PCM byte count.  The writes run
in source order, and each `writeUInt16LE`/`writeUInt32LE` call throws
`ERR_OUT_OF_RANGE` when its value does not fit — e.g. a byte rate
`sampleRate * blockAlign` above `0xFFFFFFFF`, or a block align above
`0xFFFF`. -/
def makeWavHeader (numChannels sampleRate bitsPerSample blockAlign chunkPcmSize : Nat) :
    Except WriteError (List Nat) := do
  let fileSizeBytes ← writeUInt32LE (wavHeaderSize + chunkPcmSize - 8)
  let fmtSizeBytes ← writeUInt32LE 16
  let audioFormatBytes ← writeUInt16LE 1
  let numChannelsBytes ← writeUInt16LE numChannels
  let sampleRateBytes ← writeUInt32LE sampleRate
  let byteRateBytes ← writeUInt32LE (sampleRate * blockAlign)
  let blockAlignBytes ← writeUInt16LE blockAlign
  let bitsPerSampleBytes ← writeUInt16LE bitsPerSample
  let dataSizeBytes ← writeUInt32LE chunkPcmSize
  return [82, 73, 70, 70] ++ fileSizeBytes ++ [87, 65, 86, 69] ++ [102, 109, 116, 32] ++
    fmtSizeBytes ++ audioFormatBytes ++ numChannelsBytes ++ sampleRateBytes ++
    byteRateBytes ++ blockAlignBytes ++ bitsPerSampleBytes ++ [100, 97, 116, 97] ++
    dataSizeBytes

/-- The `while (offset < pcmData.length)` loop of `splitWavIntoChunks`,
with explicit fuel.  Each iteration takes `min maxPcmPerChunk rem` PCM
bytes, synthesizes a fresh header — an `ERR_OUT_OF_RANGE` throw of a
header write ends the function as `some (error _)` — and advances
`offset` by the chunk's PCM size.  `none` models divergence: when
`maxPcmPerChunk = 0` the JavaScript loop never advances `offset` and
spins forever, and the fuel runs out without the loop finishing.  A fuel
of `pcmData.length + 1` is enough whenever `maxPcmPerChunk ≥ 1`, since
each iteration then consumes at least one PCM byte or throws. -/
def splitLoop (numChannels sampleRate bitsPerSample blockAlign maxPcmPerChunk : Nat)
    (pcmData : List Nat) : Nat → Nat → Option (Except WriteError (List (List Nat)))
  | 0, _ => none
  | fuel + 1, offset =>
    if offset < pcmData.length then
      let chunkPcmSize := min maxPcmPerChunk (pcmData.length - offset)
      let chunkPcm := (pcmData.drop offset).take chunkPcmSize
      match makeWavHeader numChannels sampleRate bitsPerSample blockAlign chunkPcmSize with
      | .error e => some (.error e)
      | .ok header =>
        match splitLoop numChannels sampleRate bitsPerSample blockAlign maxPcmPerChunk
            pcmData fuel (offset + chunkPcmSize) with
        | some (.ok rest) => some (.ok ((header ++ chunkPcm) :: rest))
        | some (.error e) => some (.error e)
        | none => none
    else some (.ok [])

/-- `splitWavIntoChunks` from `audioProcessing.ts` (lines 24-65).  If the
buffer already fits it is returned unchanged as a single chunk; otherwise
the header fields are read from the fixed offsets 22, 24 and 34, the PCM
payload after the 44-byte header is walked in strides of
`(maxChunkSize - 44) / blockAlign * blockAlign`, and each stride becomes
a standalone WAV buffer.  `bitsPerSample / 8` is JavaScript float
division in the source; the embedding uses Nat division, which agrees
whenever `bitsPerSample` is a multiple of 8 (integer-PCM WAV).
`maxChunkSize - 44` is truncated Nat subtraction; for `maxChunkSize < 44`
the JavaScript stride is negative and the first header write throws on
the negative file size, while the truncation makes the stride 0 and the
model reports `none` — no claim in this development concerns that
region, and for `44 ≤ maxChunkSize < 44 + blockAlign` (stride 0, every
write in range) source and model agree that the loop never finishes. -/
def splitWavIntoChunks (wavBuffer : List Nat) (maxChunkSize : Nat) :
    Option (Except WriteError (List (List Nat))) :=
  if wavBuffer.length ≤ maxChunkSize then some (.ok [wavBuffer])
  else
    let numChannels := readUInt16LE wavBuffer 22
    let sampleRate := readUInt32LE wavBuffer 24
    let bitsPerSample := readUInt16LE wavBuffer 34
    let blockAlign := numChannels * (bitsPerSample / 8)
    let pcmData := wavBuffer.drop wavHeaderSize
    let maxPcmPerChunk := (maxChunkSize - wavHeaderSize) / blockAlign * blockAlign
    splitLoop numChannels sampleRate bitsPerSample blockAlign maxPcmPerChunk
      pcmData (pcmData.length + 1) 0

/-- The `blockAlign` value `splitWavIntoChunks` computes from the header
of `buffer`: channel count at offset 22 times bits-per-sample at offset
34 divided by 8. -/
def wavBlockAlign (buffer : List Nat) : Nat :=
  readUInt16LE buffer 22 * (readUInt16LE buffer 34 / 8)

/-- A WAV buffer as the chunker's claims assume it: at least the 44-byte
header; actual bytes (every entry below 256); a whole number of bytes
per sample frame (`8 ∣ bitsPerSample`, required for the source's float
division `bitsPerSample / 8` to agree with integer division); a positive
block align; a PCM payload that is a whole number of sample frames; and
header fields a WAV file can actually carry — the block align fits its
16-bit header field, the byte rate `sampleRate * blockAlign` fits its
32-bit header field, and the total size fits 32 bits — so that every
header write performed by `splitWavIntoChunks` is in range. -/
def validWavBuffer (buffer : List Nat) : Prop :=
  44 ≤ buffer.length ∧ (∀ b ∈ buffer, b < 256) ∧
    readUInt16LE buffer 34 % 8 = 0 ∧ 0 < wavBlockAlign buffer ∧
    wavBlockAlign buffer ∣ (buffer.length - 44) ∧
    wavBlockAlign buffer ≤ 65535 ∧
    readUInt32LE buffer 24 * wavBlockAlign buffer ≤ 4294967295 ∧
    buffer.length ≤ 4294967295

instance (buffer : List Nat) : Decidable (validWavBuffer buffer) :=
  inferInstanceAs (Decidable (_ ∧ _))

/-- Errors thrown by `parseTopLevelBoxes` in `extract3gpAmr.ts`:
`unsupportedSize` models the `"Box at offset ... has a size > 4 GB"`
error, `malformedBox` the `"Malformed box at offset ..."` error. -/
inductive BoxError where
  | unsupportedSize (offset : Nat)
  | malformedBox (offset totalBoxSize headerSize : Nat)
deriving DecidableEq

/-- The `Box` descriptor of `extract3gpAmr.ts`: 4-char type tag (as
decoded char codes), byte offset of the first size byte, header size
(8 or 16), and payload byte count. -/
structure Box where
  type : List Nat
  start : Nat
  headerSize : Nat
  payloadSize : Nat
deriving DecidableEq

/-- The box type tag read at `offset`:
`buffer.toString('ascii', offset + 4, offset + 8)`. -/
def boxType (buffer : List Nat) (offset : Nat) : List Nat :=
  asciiSlice buffer (offset + 4) (offset + 8)

/-- The size/header computation of one `parseTopLevelBoxes` iteration
(lines 41-69 of `extract3gpAmr.ts`): reads the 4-byte big-endian size
field and returns `(headerSize, totalBoxSize)`.  `ok none` models the
`break` on a truncated extended-size box (`offset + 16 > buffer.length`),
which stops the walk without an error. -/
def readBoxHeader (buffer : List Nat) (offset : Nat) :
    Except BoxError (Option (Nat × Nat)) :=
  let sizeField := readUInt32BE buffer offset
  if sizeField = 0 then .ok (some (8, buffer.length - offset))
  else if sizeField = 1 then
    if buffer.length < offset + 16 then .ok none
    else
      let hiWord := readUInt32BE buffer (offset + 8)
      if hiWord ≠ 0 then .error (.unsupportedSize offset)
      else .ok (some (16, readUInt32BE buffer (offset + 12)))
  else .ok (some (8, sizeField))

/-- The remainder of one `parseTopLevelBoxes` iteration after the size
field was read (`hdr` is the `readBoxHeader` outcome): propagate its
error, stop on a `break`, fail with `malformedBox` when the declared
total size is below the header size, and otherwise record the box and
continue the walk (`next`) at `offset + totalBoxSize`. -/
def stepBox (buffer : List Nat) (offset : Nat)
    (hdr : Except BoxError (Option (Nat × Nat)))
    (next : Nat → Except BoxError (List Box)) : Except BoxError (List Box) :=
  match hdr with
  | .error e => .error e
  | .ok none => .ok []
  | .ok (some (headerSize, totalBoxSize)) =>
    if totalBoxSize < headerSize then
      .error (.malformedBox offset totalBoxSize headerSize)
    else
      (next (offset + totalBoxSize)).map
        (fun rest =>
          { type := boxType buffer offset, start := offset,
            headerSize := headerSize,
            payloadSize := totalBoxSize - headerSize } :: rest)

/-- The `while (offset + 8 <= buffer.length)` loop of
`parseTopLevelBoxes`, with explicit fuel.  Each parsed box advances the
scan offset by its total size (at least 8 bytes per iteration, since the
malformed-box check enforces `headerSize ≤ totalBoxSize`), so a fuel of
`buffer.length + 1` is always sufficient and the fuel-exhaustion branch
is unreachable from `parseTopLevelBoxes`. -/
def parseBoxesFrom (buffer : List Nat) : Nat → Nat → Except BoxError (List Box)
  | 0, _ => .ok []
  | fuel + 1, offset =>
    if offset + 8 ≤ buffer.length then
      stepBox buffer offset (readBoxHeader buffer offset) (parseBoxesFrom buffer fuel)
    else .ok []

/-- `parseTopLevelBoxes` from `extract3gpAmr.ts` (lines 35-88). -/
def parseTopLevelBoxes (buffer : List Nat) : Except BoxError (List Box) :=
  parseBoxesFrom buffer (buffer.length + 1) 0

/-- Errors of `extract3gpAmrData`: a box-parsing error, or the
`"No mdat box found in the supplied buffer."` error. -/
inductive ExtractError where
  | box (e : BoxError)
  | noMdat
deriving DecidableEq

/-- `extract3gpAmrData` from `extract3gpAmr.ts` (lines 96-108): parse
the top-level boxes, find the first `mdat` box, slice out its payload
and prepend the 6-byte AMR magic header. -/
def extract3gpAmrData (buffer : List Nat) : Except ExtractError (List Nat) :=
  match parseTopLevelBoxes buffer with
  | .error e => .error (.box e)
  | .ok boxes =>
    match boxes.find? (fun b => b.type == mdatTag) with
    | none => .error .noMdat
    | some mdatBox =>
      let payloadStart := mdatBox.start + mdatBox.headerSize
      .ok (amrMagic ++ subarray buffer payloadStart (payloadStart + mdatBox.payloadSize))

/-- The `PreparedAudio` value of `audioProcessing.ts`: buffer, upload
file name and MIME type. -/
structure PreparedAudio where
  buffer : List Nat
  name : String
  type : String
deriving DecidableEq

/-- The error thrown by `convertAmrToWav` when the codec returns no
output (`"AMR 디코딩 실패"`). -/
inductive PrepareError where
  | codecDecode
deriving DecidableEq

/-- `convertAmrToWav` from `audioProcessing.ts` (lines 13-22).  The
external AMR codec (`AMR.toWAV`) is the oracle `amrToWav`; `none`
models a `null` codec result, on which the function throws. -/
def convertAmrToWav (amrToWav : List Nat → Option (List Nat)) (amrBuffer : List Nat) :
    Except PrepareError (List Nat) :=
  match amrToWav amrBuffer with
  | none => .error .codecDecode
  | some wavData => .ok wavData

/-- The 3GP brand check of `prepareAudioForWhisper`:
`inputBuffer.toString("ascii", 8, 12).startsWith("3gp")`. -/
def startsWith3gp (buffer : List Nat) : Bool :=
  (asciiSlice buffer 8 12).take 3 == [51, 103, 112]

/-- The `MIME_MAP` extension table of `audioProcessing.ts`. -/
def MIME_MAP : List (String × String) :=
  [("m4a", "audio/mp4"), ("mp3", "audio/mpeg"), ("aac", "audio/aac"),
   ("wav", "audio/wav"), ("ogg", "audio/ogg"), ("webm", "audio/webm"),
   ("flac", "audio/flac"), ("mp4", "audio/mp4"), ("mpeg", "audio/mpeg"),
   ("mpga", "audio/mpeg"), ("oga", "audio/ogg")]

/-- The alternatives of the extension regex
`/\.(m4a|mp3|aac|wav|ogg|webm|flac|mp4|mpeg|mpga|oga)$/`. -/
def extAlternatives : List String :=
  ["m4a", "mp3", "aac", "wav", "ogg", "webm", "flac", "mp4", "mpeg", "mpga", "oga"]

/-- The extension captured by the regex match on the lowercased file
name, defaulting to `"mp3"` (`... ?.[1] || "mp3"`).  The regex is
anchored at the end and the alternatives contain no dot, so it matches
exactly when the lowercased name ends in a dot followed by one of the
alternatives. -/
def matchedExt (originalFileName : String) : String :=
  match extAlternatives.find? (fun e => originalFileName.toLower.endsWith ("." ++ e)) with
  | some e => e
  | none => "mp3"

/-- `MIME_MAP[ext] || "audio/mpeg"`. -/
def mimeLookup (ext : String) : String :=
  ((MIME_MAP.find? (fun p => p.1 == ext)).map Prod.snd).getD "audio/mpeg"

/-- `prepareAudioForWhisper` from `audioProcessing.ts` (lines 79-119).
The `log` callback only writes debug output and is omitted.  The AMR
codec is the oracle `amrToWav`.  On a codec-native (AMR magic) buffer a
codec failure propagates; inside the 3GP extraction branch the
`try/catch` turns every extraction or codec failure into the
fall-back `PreparedAudio` carrying the original container bytes. -/
def prepareAudioForWhisper (amrToWav : List Nat → Option (List Nat))
    (inputBuffer : List Nat) (originalFileName : String) :
    Except PrepareError PreparedAudio :=
  if isAmrFile inputBuffer then
    match convertAmrToWav amrToWav inputBuffer with
    | .error e => .error e
    | .ok wavBuffer => .ok { buffer := wavBuffer, name := "audio.wav", type := "audio/wav" }
  else if isMp4Container inputBuffer then
    if startsWith3gp inputBuffer then
      match extract3gpAmrData inputBuffer with
      | .error _ => .ok { buffer := inputBuffer, name := "audio.mp4", type := "audio/mp4" }
      | .ok amrBuffer =>
        match convertAmrToWav amrToWav amrBuffer with
        | .error _ => .ok { buffer := inputBuffer, name := "audio.mp4", type := "audio/mp4" }
        | .ok wavBuffer =>
          .ok { buffer := wavBuffer, name := "audio.wav", type := "audio/wav" }
    else .ok { buffer := inputBuffer, name := "audio.mp4", type := "audio/mp4" }
  else
    .ok { buffer := inputBuffer, name := "audio." ++ matchedExt originalFileName,
          type := mimeLookup (matchedExt originalFileName) }

deriving instance DecidableEq for Except

/-- The characters JavaScript's `String.prototype.trim` removes
(WhiteSpace and LineTerminator): tab, LF, VT, FF, CR, space, NBSP, line
and paragraph separators, and the BOM.  (The remaining Unicode
space-separator characters do not occur in any string this development
evaluates.) -/
def isJsWhitespace (c : Char) : Bool :=
  c == ' ' || c == '\t' || c == '\n' || c == '\r' || c == Char.ofNat 11 ||
    c == Char.ofNat 12 || c == Char.ofNat 160 || c == Char.ofNat 8232 ||
    c == Char.ofNat 8233 || c == Char.ofNat 65279

/-- Models JavaScript's `value.trim()`: leading and trailing whitespace
removed. -/
def jsTrim (s : String) : String :=
  String.mk (((s.data.dropWhile isJsWhitespace).reverse.dropWhile isJsWhitespace).reverse)

/-- One settled per-chunk transcription call, as produced by
`Promise.allSettled` in the transcribe route: `fulfilled` carries the
transcript string the call resolved with, `rejected` a failed call. -/
inductive SettledResult where
  | fulfilled (value : String)
  | rejected
deriving DecidableEq

/-- The merged response of the chunked path: the transcript and the
optional `partialFailure` note. -/
structure ChunkMerge where
  transcript : String
  partialFailure : Option String
deriving DecidableEq

/-- The partial-failure note
`일부 구간(${failedChunks.join(", ")}/${chunks.length})의 변환에 실패했습니다.`. -/
def partialFailureMsg (failedChunks : List Nat) (total : Nat) : String :=
  "일부 구간(" ++ String.intercalate ", " (failedChunks.map toString) ++ "/" ++
    toString total ++ ")의 변환에 실패했습니다."

/-- The `for (let i = 0; i < settled.length; i++)` collection loop of
the transcribe route (lines 634-643): a fulfilled result's trimmed text
is appended to `successResults` when non-empty; a rejected result
appends its 1-based index to `failedChunks`.  `i` is the index of the
first element of `settled`. -/
def collectSettled : List SettledResult → Nat → List String × List Nat
  | [], _ => ([], [])
  | r :: rest, i =>
    let acc := collectSettled rest (i + 1)
    match r with
    | .fulfilled v =>
      let text := jsTrim v
      if 0 < text.length then (text :: acc.1, acc.2) else acc
    | .rejected => (acc.1, (i + 1) :: acc.2)

/-- The merge step of the chunked transcription path (lines 634-652 of
the transcribe route): collect the settled chunk results; if no
non-empty success was collected, answer the 502 all-chunks-failed error
(`"음성 변환에 실패했습니다. 다시 시도해주세요."`); otherwise join the
collected texts with single spaces and attach the partial-failure note
exactly when some chunk was rejected. -/
def mergeChunkResults (settled : List SettledResult) : Except String ChunkMerge :=
  let acc := collectSettled settled 0
  if acc.1.length = 0 then .error "음성 변환에 실패했습니다. 다시 시도해주세요."
  else
    .ok { transcript := String.intercalate " " acc.1,
          partialFailure :=
            if 0 < acc.2.length then some (partialFailureMsg acc.2 settled.length)
            else none }

/-- Declarative description of the collected success texts: the trimmed
transcripts of the fulfilled calls whose trimmed text is non-empty, in
original chunk order. -/
def successTexts (settled : List SettledResult) : List String :=
  settled.filterMap (fun r =>
    match r with
    | .fulfilled v => if 0 < (jsTrim v).length then some (jsTrim v) else none
    | .rejected => none)

/-- Declarative description of the failed chunk indices: the 1-based
positions of the rejected results, in order; `i` is the 1-based index
offset (`failedIndicesFrom settled 0` numbers from 1). -/
def failedIndicesFrom (settled : List SettledResult) (i : Nat) : List Nat :=
  (List.enumFrom i settled).filterMap (fun p =>
    match p.2 with
    | .rejected => some (p.1 + 1)
    | .fulfilled _ => none)

/-- The six-field `Summary` shape from `types.ts`. -/
structure Summary where
  briefSummary : String
  participants : String
  keyPoints : String
  agreements : String
  legallySignificant : String
  cautions : String
deriving DecidableEq

/-- `GPT_MODELS` from `summarize.ts`. -/
def GPT_MODELS : List String := ["gpt-5.2", "gpt-4o", "gpt-4o-mini"]

/-- The message content of a summarization response together with the
outcome of `JSON.parse` on it.  `parseable value raw` models a content
string `raw` on which `JSON.parse` succeeds; the code returns the parsed
value through the unchecked cast `as Summary`, which the embedding
represents by the carried `value`.  `unparseable raw` models a content
string on which `JSON.parse` throws. -/
inductive ModelContent where
  | parseable (value : Summary) (raw : String)
  | unparseable (raw : String)
deriving DecidableEq

/-- The raw content string of a `ModelContent`. -/
def ModelContent.rawText : ModelContent → String
  | .parseable _ r => r
  | .unparseable r => r

/-- Outcome of one `openai.chat.completions.create` call in
`createSummary`: a response whose `choices[0]?.message?.content` is
`content` (`none` models a null/undefined content), an `OpenAI.APIError`
with the given status, or any other thrown error. -/
inductive ServiceOutcome where
  | response (content : Option ModelContent)
  | apiFailure (status : Option Nat)
  | failure (message : String)
deriving DecidableEq

/-- Errors `createSummary` can end with: `allModelsExhausted` is the
final `"모든 GPT 모델을 사용할 수 없습니다. 관리자에게 문의하세요."` error,
`noContent` the `"요약 생성에 실패했습니다."` error thrown on missing or
empty content, `apiError` a rethrown `OpenAI.APIError`, `other` any
other rethrown error. -/
inductive SummaryError where
  | allModelsExhausted
  | noContent
  | apiError (status : Option Nat)
  | other (message : String)
deriving DecidableEq

/-- The degraded `Summary` built in the `catch` of `JSON.parse`
(lines 51-58 of `summarize.ts`). -/
def degradedSummary (summaryText : String) : Summary :=
  { briefSummary := summaryText,
    participants := "자동 분석 불가",
    keyPoints := summaryText,
    agreements := "확인된 사항 없음",
    legallySignificant := "확인된 사항 없음",
    cautions := "AI 응답 형식 오류로 자동 분석이 불가했습니다. 위 텍스트를 직접 확인해주세요." }

/-- The body of one `for (const model of GPT_MODELS)` iteration of
`createSummary` (lines 31-66 of `summarize.ts`) given the outcome `o` of
the service call for the current model: a missing or empty content
(`!summaryText`) throws the non-APIError `noContent`, which the catch
rethrows; a successful parse returns the parsed value; a parse failure
yields the degraded summary; an `OpenAI.APIError` with status 404 or 400
runs `continue` (the continuation `next`, i.e. the remaining models);
every other error is rethrown immediately. -/
def handleOutcome (o : ServiceOutcome) (next : Except SummaryError Summary) :
    Except SummaryError Summary :=
  match o with
  | .response none => .error .noContent
  | .response (some content) =>
    if content.rawText = "" then .error .noContent
    else
      match content with
      | .parseable value _ => .ok value
      | .unparseable raw => .ok (degradedSummary raw)
  | .apiFailure status =>
    if status = some 404 ∨ status = some 400 then next
    else .error (.apiError status)
  | .failure message => .error (.other message)

/-- The `for (const model of GPT_MODELS)` loop of `createSummary`, with
the Summarization Service as the oracle `env` from model id to call
outcome; falling off the loop end throws `allModelsExhausted`. -/
def tryModels (env : String → ServiceOutcome) : List String → Except SummaryError Summary
  | [] => .error .allModelsExhausted
  | model :: rest => handleOutcome (env model) (tryModels env rest)

/-- `createSummary` from `summarize.ts`. -/
def createSummary (env : String → ServiceOutcome) : Except SummaryError Summary :=
  tryModels env GPT_MODELS

/-- An outcome on which the loop advances to the next model: an
`OpenAI.APIError` with status 404 or 400. -/
def isSkipOutcome (o : ServiceOutcome) : Prop :=
  o = .apiFailure (some 404) ∨ o = .apiFailure (some 400)

instance (o : ServiceOutcome) : Decidable (isSkipOutcome o) :=
  inferInstanceAs (Decidable (_ ∨ _))

/-- A concrete valid WAV buffer: 44-byte header declaring 1 channel and
8 bits per sample (`blockAlign = 1`), followed by a 4-byte PCM payload. -/
def wavSample : List Nat :=
  List.replicate 22 0 ++ [1, 0] ++ List.replicate 10 0 ++ [8, 0] ++
    List.replicate 8 0 ++ [1, 2, 3, 4]

def settledSample : List SettledResult :=
  [.fulfilled "a", .rejected, .fulfilled "b"]

/-- The oracle rejecting every model with status 404. -/
def envAll404 : String → ServiceOutcome := fun _ => .apiFailure (some 404)

/-- An oracle whose every call responds with unparseable content
`"hello"`. -/
def envUnparseableHello : String → ServiceOutcome :=
  fun _ => .response (some (.unparseable "hello"))

/-- An oracle whose every call responds with unparseable content
`"world"`. -/
def envUnparseableWorld : String → ServiceOutcome :=
  fun _ => .response (some (.unparseable "world"))

/-- A box whose extended size has a non-zero high word, at offset 0. -/
def extendedSizeSample : List Nat :=
  [0, 0, 0, 1, 109, 100, 97, 116, 0, 0, 0, 1, 0, 0, 0, 16]

/-- A buffer whose first box declares total size 4 with an 8-byte
header. -/
def malformedSample : List Nat := [0, 0, 0, 4, 109, 100, 97, 116]

/-- The AMR magic header alone, a codec-native buffer. -/
def amrSampleBuffer : List Nat := [35, 33, 65, 77, 82, 10]

/-- A codec oracle that always reports failure. -/
def codecNone : List Nat → Option (List Nat) := fun _ => none

/-- A minimal 3GP-branded container: a single `ftyp` box of total size
8 with brand `"3gp4"`, and no `mdat` box. -/
def threeGpSample : List Nat :=
  [0, 0, 0, 8, 102, 116, 121, 112, 51, 103, 112, 52]

theorem byteAt_lt_256 (buffer : List Nat) (hb : ∀ b ∈ buffer, b < 256) (i : Nat) :
    byteAt buffer i < 256 := by
  unfold byteAt
  by_cases h : i < buffer.length
  · rw [List.getD_eq_getElem _ _ h]
    exact hb _ (List.getElem_mem h)
  · rw [List.getD_eq_default _ _ (by omega)]
    omega

theorem readUInt16LE_le (buffer : List Nat) (hb : ∀ b ∈ buffer, b < 256) (offset : Nat) :
    readUInt16LE buffer offset ≤ 65535 := by
  unfold readUInt16LE
  have h0 := byteAt_lt_256 buffer hb offset
  have h1 := byteAt_lt_256 buffer hb (offset + 1)
  omega

theorem readUInt32LE_le (buffer : List Nat) (hb : ∀ b ∈ buffer, b < 256) (offset : Nat) :
    readUInt32LE buffer offset ≤ 4294967295 := by
  unfold readUInt32LE
  have h0 := byteAt_lt_256 buffer hb offset
  have h1 := byteAt_lt_256 buffer hb (offset + 1)
  have h2 := byteAt_lt_256 buffer hb (offset + 2)
  have h3 := byteAt_lt_256 buffer hb (offset + 3)
  omega

theorem writeUInt16LE_ok (value : Nat) (h : value ≤ 65535) :
    writeUInt16LE value = .ok (u16le value) := by
  unfold writeUInt16LE
  rw [if_neg (by omega)]

theorem writeUInt32LE_ok (value : Nat) (h : value ≤ 4294967295) :
    writeUInt32LE value = .ok (u32le value) := by
  unfold writeUInt32LE
  rw [if_neg (by omega)]

theorem wavHeaderBytes_length (nc sr bps ba sz : Nat) :
    (wavHeaderBytes nc sr bps ba sz).length = 44 := by
  simp [wavHeaderBytes, u16le, u32le]

theorem makeWavHeader_eq_ok (nc sr bps ba sz : Nat)
    (hnc : nc ≤ 65535) (hsr : sr ≤ 4294967295) (hrate : sr * ba ≤ 4294967295)
    (hba : ba ≤ 65535) (hbps : bps ≤ 65535) (hsz : sz ≤ 4294967251) :
    makeWavHeader nc sr bps ba sz = .ok (wavHeaderBytes nc sr bps ba sz) := by
  unfold makeWavHeader
  simp only [writeUInt32LE_ok (wavHeaderSize + sz - 8)
      (by simp only [wavHeaderSize]; omega),
    writeUInt32LE_ok 16 (by omega), writeUInt16LE_ok 1 (by omega),
    writeUInt16LE_ok nc hnc, writeUInt32LE_ok sr hsr,
    writeUInt32LE_ok (sr * ba) hrate, writeUInt16LE_ok ba hba,
    writeUInt16LE_ok bps hbps, writeUInt32LE_ok sz (by omega)]
  rfl

theorem splitLoop_join (nc sr bps ba mp : Nat) (pcm : List Nat)
    (hnc : nc ≤ 65535) (hsr : sr ≤ 4294967295) (hrate : sr * ba ≤ 4294967295)
    (hba : ba ≤ 65535) (hbps : bps ≤ 65535) (hpcm : pcm.length ≤ 4294967251) :
    ∀ (fuel offset : Nat) (cs : List (List Nat)),
      splitLoop nc sr bps ba mp pcm fuel offset = some (.ok cs) →
      (cs.map (fun c => c.drop 44)).flatten = pcm.drop offset := by
  intro fuel
  induction fuel with
  | zero => intro offset cs h; simp [splitLoop] at h
  | succ n ih =>
    intro offset cs h
    simp only [splitLoop] at h
    split at h
    · split at h
      case _ e hmk => simp at h
      case _ header hmk =>
        have hW := makeWavHeader_eq_ok nc sr bps ba (min mp (pcm.length - offset))
          hnc hsr hrate hba hbps (by omega)
        rw [hmk] at hW
        obtain rfl := Except.ok.inj hW
        split at h
        case _ rest hrec =>
          obtain rfl := Except.ok.inj (Option.some.inj h)
          simp only [List.map_cons, List.flatten_cons]
          rw [show ((wavHeaderBytes nc sr bps ba (min mp (pcm.length - offset)) ++
              (pcm.drop offset).take (min mp (pcm.length - offset))).drop 44) =
              (pcm.drop offset).take (min mp (pcm.length - offset)) from by
            rw [show (44 : Nat) = (wavHeaderBytes nc sr bps ba
              (min mp (pcm.length - offset))).length from
              (wavHeaderBytes_length _ _ _ _ _).symm, List.drop_left]]
          rw [ih _ _ hrec]
          have hdd : List.drop (mp ⊓ (pcm.length - offset)) (List.drop offset pcm) =
              List.drop (offset + mp ⊓ (pcm.length - offset)) pcm := by
            rw [List.drop_drop, Nat.add_comm]
          rw [← hdd, List.take_append_drop]
        case _ e hrec => simp at h
        case _ hrec => simp at h
    · case _ hge =>
      obtain rfl := Except.ok.inj (Option.some.inj h)
      simp [List.drop_eq_nil_of_le (by omega : pcm.length ≤ offset)]

theorem splitLoop_dvd (nc sr bps ba mp : Nat) (pcm : List Nat)
    (hnc : nc ≤ 65535) (hsr : sr ≤ 4294967295) (hrate : sr * ba ≤ 4294967295)
    (hba : ba ≤ 65535) (hbps : bps ≤ 65535) (hpcm : pcm.length ≤ 4294967251)
    (hmp : ba ∣ mp) (hlen : ba ∣ pcm.length) :
    ∀ (fuel offset : Nat) (cs : List (List Nat)), ba ∣ offset →
      splitLoop nc sr bps ba mp pcm fuel offset = some (.ok cs) →
      ∀ c ∈ cs, ba ∣ (c.drop 44).length := by
  intro fuel
  induction fuel with
  | zero => intro offset cs _ h; simp [splitLoop] at h
  | succ n ih =>
    intro offset cs hoff h
    simp only [splitLoop] at h
    split at h
    · case _ hlt =>
      have hsize : ba ∣ min mp (pcm.length - offset) := by
        rcases Nat.le_total mp (pcm.length - offset) with hle | hle
        · rw [min_eq_left hle]; exact hmp
        · rw [min_eq_right hle]; exact Nat.dvd_sub' hlen hoff
      split at h
      case _ e hmk => simp at h
      case _ header hmk =>
        have hW := makeWavHeader_eq_ok nc sr bps ba (min mp (pcm.length - offset))
          hnc hsr hrate hba hbps (by omega)
        rw [hmk] at hW
        obtain rfl := Except.ok.inj hW
        split at h
        case _ rest hrec =>
          obtain rfl := Except.ok.inj (Option.some.inj h)
          intro c hc
          rcases List.mem_cons.mp hc with rfl | hc
          · rw [show (44 : Nat) = (wavHeaderBytes nc sr bps ba
              (min mp (pcm.length - offset))).length from
              (wavHeaderBytes_length _ _ _ _ _).symm,
              List.drop_left, List.length_take, List.length_drop]
            rw [min_eq_left (by omega : min mp (pcm.length - offset) ≤ pcm.length - offset)]
            exact hsize
          · exact ih _ _ (Nat.dvd_add hoff hsize) hrec c hc
        case _ e hrec => simp at h
        case _ hrec => simp at h
    · case _ hge =>
      obtain rfl := Except.ok.inj (Option.some.inj h)
      intro c hc
      simp at hc

theorem splitLoop_ok_total (nc sr bps ba mp : Nat) (pcm : List Nat)
    (hnc : nc ≤ 65535) (hsr : sr ≤ 4294967295) (hrate : sr * ba ≤ 4294967295)
    (hba : ba ≤ 65535) (hbps : bps ≤ 65535) (hpcm : pcm.length ≤ 4294967251)
    (hmp : 1 ≤ mp) :
    ∀ (fuel offset : Nat), pcm.length - offset < fuel →
      ∃ cs, splitLoop nc sr bps ba mp pcm fuel offset = some (.ok cs) := by
  intro fuel
  induction fuel with
  | zero => intro offset h; omega
  | succ n ih =>
    intro offset hfuel
    by_cases hlt : offset < pcm.length
    · have hsize : 1 ≤ min mp (pcm.length - offset) := by
        have : 1 ≤ pcm.length - offset := by omega
        omega
      have hmk := makeWavHeader_eq_ok nc sr bps ba (min mp (pcm.length - offset))
        hnc hsr hrate hba hbps (by omega)
      obtain ⟨rest, hr⟩ := ih (offset + min mp (pcm.length - offset)) (by omega)
      refine ⟨(wavHeaderBytes nc sr bps ba (min mp (pcm.length - offset)) ++
        (pcm.drop offset).take (min mp (pcm.length - offset))) :: rest, ?_⟩
      simp only [splitLoop, if_pos hlt]
      rw [hmk, hr]
    · refine ⟨[], ?_⟩
      simp only [splitLoop, if_neg hlt]


theorem collectSettled_eq (settled : List SettledResult) :
    ∀ i : Nat, collectSettled settled i = (successTexts settled, failedIndicesFrom settled i) := by
  induction settled with
  | nil => intro i; simp [collectSettled, successTexts, failedIndicesFrom]
  | cons r rest ih =>
    intro i
    cases r with
    | fulfilled v =>
      simp only [collectSettled, successTexts, failedIndicesFrom, List.filterMap_cons,
        List.enumFrom_cons, ih (i + 1)]
      split
      · simp [successTexts, failedIndicesFrom]
      · simp [successTexts, failedIndicesFrom]
    | rejected =>
      simp [collectSettled, successTexts, failedIndicesFrom, List.filterMap_cons,
        List.enumFrom_cons, ih (i + 1)]

theorem handleOutcome_of_not_skip (o : ServiceOutcome)
    (h : ¬ isSkipOutcome o) (next₁ next₂ : Except SummaryError Summary) :
    handleOutcome o next₁ = handleOutcome o next₂ := by
  cases o with
  | response content => cases content with
    | none => rfl
    | some c => rfl
  | apiFailure status =>
    have hs : ¬ (status = some 404 ∨ status = some 400) := by
      intro hs
      exact h (by rcases hs with hs | hs <;> [left; right] <;> rw [hs])
    simp [handleOutcome, hs]
  | failure message => rfl

theorem handleOutcome_ne_exhausted (o : ServiceOutcome) (h : ¬ isSkipOutcome o)
    (next : Except SummaryError Summary) :
    handleOutcome o next ≠ .error .allModelsExhausted := by
  cases o with
  | response content =>
    cases content with
    | none => simp [handleOutcome]
    | some c =>
      by_cases hraw : c.rawText = ""
      · simp [handleOutcome, hraw]
      · cases c with
        | parseable value raw => simp [handleOutcome, hraw]
        | unparseable raw => simp [handleOutcome, hraw]
  | apiFailure status =>
    have hs : ¬ (status = some 404 ∨ status = some 400) := by
      intro hs
      exact h (by rcases hs with hs | hs <;> [left; right] <;> rw [hs])
    simp [handleOutcome, hs]
  | failure message => simp [handleOutcome]

theorem tryModels_exhausted_iff (env : String → ServiceOutcome) :
    ∀ models : List String,
      tryModels env models = .error .allModelsExhausted ↔
        ∀ m ∈ models, isSkipOutcome (env m) := by
  intro models
  induction models with
  | nil => simp [tryModels]
  | cons m rest ih =>
    rw [tryModels]
    by_cases hskip : isSkipOutcome (env m)
    · rcases hskip with hm | hm <;>
        · rw [hm]
          simp only [handleOutcome]
          rw [if_pos (by simp)]
          constructor
          · intro h m' hm'
            rcases List.mem_cons.mp hm' with rfl | hm'
            · rw [hm]; simp [isSkipOutcome]
            · exact (ih.mp h) m' hm'
          · intro h
            exact ih.mpr (fun m' hm' => h m' (List.mem_cons_of_mem m hm'))
    · constructor
      · intro h
        exact absurd h (handleOutcome_ne_exhausted (env m) hskip _)
      · intro h
        exact absurd (h m (List.mem_cons_self m rest)) hskip

theorem asciiSlice_getD (buffer : List Nat) (a b i : Nat)
    (hb : a + i < b) (hlen : a + i < buffer.length) :
    (asciiSlice buffer a b).getD i 0 = byteAt buffer (a + i) % 128 := by
  unfold asciiSlice
  have hlt : i < (((buffer.take b).drop a).map (fun x => x % 128)).length := by
    simp [List.length_drop, List.length_take]
    omega
  rw [List.getD_eq_getElem _ _ hlt]
  rw [List.getElem_map]
  rw [List.getElem_drop]
  rw [List.getElem_take]
  unfold byteAt
  rw [List.getD_eq_getElem _ _ hlen]

theorem not_amr_and_mp4 (buffer : List Nat) :
    ¬ (isAmrFile buffer = true ∧ isMp4Container buffer = true) := by
  rintro ⟨hamr, hmp4⟩
  rw [isAmrFile, Bool.and_eq_true, decide_eq_true_eq, decide_eq_true_eq] at hamr
  rw [isMp4Container, Bool.and_eq_true, decide_eq_true_eq, decide_eq_true_eq] at hmp4
  obtain ⟨h6, hslice6⟩ := hamr
  obtain ⟨h8, hslice8⟩ := hmp4
  have e1 : (asciiSlice buffer 0 6).getD 4 0 = byteAt buffer 4 % 128 :=
    asciiSlice_getD buffer 0 6 4 (by omega) (by omega)
  have e2 : (asciiSlice buffer 4 8).getD 0 0 = byteAt buffer 4 % 128 :=
    asciiSlice_getD buffer 4 8 0 (by omega) (by omega)
  rw [hslice6] at e1
  rw [hslice8] at e2
  simp [amrMagic, ftypTag] at e1 e2
  omega

/-- C1: `splitWavIntoChunks` is not total over *every* `maxChunkSize`: on
this valid 48-byte WAV buffer with `maxChunkSize = 44` the computed PCM
stride is `(44 - 44) / 1 * 1 = 0`, every header write is in range
(`chunkPcmSize = 0`), the loop never advances its offset, and the
JavaScript function never returns (modelled as `none`), so no chunk
list satisfying the claimed properties is produced. -/
theorem C1_counterexample :
    validWavBuffer wavSample ∧ 44 < wavSample.length ∧
      splitWavIntoChunks wavSample 44 = none := by decide

/-- C1 (amended): for every valid WAV buffer (byte entries, 44-byte
header, `8 ∣ bitsPerSample`, positive block align dividing the PCM
length, and in-range header fields: block align at most `0xFFFF`, byte
rate `sampleRate * blockAlign` at most `0xFFFFFFFF`, length at most
`0xFFFFFFFF` — so no header write throws `ERR_OUT_OF_RANGE`): if the
buffer already fits then `splitWavIntoChunks` returns it unchanged as a
single chunk; and whenever `maxChunkSize` is at least `44 + blockAlign`
(so the computed PCM stride is positive), it returns a chunk list whose
PCM payloads (bytes after each 44-byte header) concatenate to exactly
the input buffer's PCM payload and whose every chunk PCM length is a
multiple of `blockAlign`.  (The original claim's "every maxChunkSize"
fails: see the counterexample, where the loop never terminates; and
without the in-range header fields the source throws mid-loop on a
`writeUInt16LE`/`writeUInt32LE` range check instead of producing
chunks.) -/
theorem C1_splitWavIntoChunks_lossless (wavBuffer : List Nat) (maxChunkSize : Nat)
    (hv : validWavBuffer wavBuffer) :
    (wavBuffer.length ≤ maxChunkSize →
      splitWavIntoChunks wavBuffer maxChunkSize = some (.ok [wavBuffer])) ∧
    (44 + wavBlockAlign wavBuffer ≤ maxChunkSize →
      ∃ cs, splitWavIntoChunks wavBuffer maxChunkSize = some (.ok cs) ∧
        (cs.map (fun c => c.drop 44)).flatten = wavBuffer.drop 44 ∧
        ∀ c ∈ cs, wavBlockAlign wavBuffer ∣ (c.drop 44).length) := by
  obtain ⟨hlen, hbytes, hmod, hpos, hdvd, hba16, hrate32, hlen32⟩ := hv
  have hnc : readUInt16LE wavBuffer 22 ≤ 65535 := readUInt16LE_le wavBuffer hbytes 22
  have hbps : readUInt16LE wavBuffer 34 ≤ 65535 := readUInt16LE_le wavBuffer hbytes 34
  have hsr : readUInt32LE wavBuffer 24 ≤ 4294967295 := readUInt32LE_le wavBuffer hbytes 24
  have hpcm : (wavBuffer.drop 44).length ≤ 4294967251 := by
    rw [List.length_drop]; omega
  constructor
  · intro hle
    simp [splitWavIntoChunks, hle]
  · intro hmax
    by_cases hle : wavBuffer.length ≤ maxChunkSize
    · refine ⟨[wavBuffer], by simp [splitWavIntoChunks, hle], by simp, ?_⟩
      intro c hc
      rcases List.mem_singleton.mp hc with rfl
      rw [List.length_drop]
      exact hdvd
    · have hba : 1 ≤ wavBlockAlign wavBuffer := hpos
      have hmp1 : 1 ≤ (maxChunkSize - 44) / wavBlockAlign wavBuffer * wavBlockAlign wavBuffer := by
        have h1 : wavBlockAlign wavBuffer ≤ maxChunkSize - 44 := by omega
        have hq : 1 ≤ (maxChunkSize - 44) / wavBlockAlign wavBuffer :=
          (Nat.one_le_div_iff hpos).mpr h1
        have := Nat.mul_le_mul hq (Nat.le_refl (wavBlockAlign wavBuffer))
        omega
      obtain ⟨cs, hcs⟩ := splitLoop_ok_total (readUInt16LE wavBuffer 22)
        (readUInt32LE wavBuffer 24) (readUInt16LE wavBuffer 34) (wavBlockAlign wavBuffer)
        ((maxChunkSize - 44) / wavBlockAlign wavBuffer * wavBlockAlign wavBuffer)
        (wavBuffer.drop 44) hnc hsr hrate32 hba16 hbps hpcm hmp1
        ((wavBuffer.drop 44).length + 1) 0 (by omega)
      refine ⟨cs, ?_, ?_, ?_⟩
      · simp only [splitWavIntoChunks, if_neg hle, wavHeaderSize]
        exact hcs
      · have := splitLoop_join (readUInt16LE wavBuffer 22) (readUInt32LE wavBuffer 24)
          (readUInt16LE wavBuffer 34) (wavBlockAlign wavBuffer)
          ((maxChunkSize - 44) / wavBlockAlign wavBuffer * wavBlockAlign wavBuffer)
          (wavBuffer.drop 44) hnc hsr hrate32 hba16 hbps hpcm _ _ _ hcs
        simpa using this
      · exact splitLoop_dvd (readUInt16LE wavBuffer 22) (readUInt32LE wavBuffer 24)
          (readUInt16LE wavBuffer 34) (wavBlockAlign wavBuffer)
          ((maxChunkSize - 44) / wavBlockAlign wavBuffer * wavBlockAlign wavBuffer)
          (wavBuffer.drop 44) hnc hsr hrate32 hba16 hbps hpcm (Dvd.intro_left _ rfl)
          (by rw [List.length_drop]; exact hdvd) _ _ _ (Nat.dvd_zero _) hcs

/-- Witness for C1 at the concrete buffer `wavSample` with
`maxChunkSize = 46`. -/
theorem C1_witness :
    validWavBuffer wavSample ∧
    (∃ cs, splitWavIntoChunks wavSample 46 = some (.ok cs) ∧
      (cs.map (fun c => c.drop 44)).flatten = wavSample.drop 44 ∧
      ∀ c ∈ cs, wavBlockAlign wavSample ∣ (c.drop 44).length) :=
  ⟨by decide, (C1_splitWavIntoChunks_lossless wavSample 46 (by decide)).2 (by decide)⟩

/-- C2 (amended): in the chunked transcription path, the merged
transcript is the single-space join of the trimmed transcripts of the
fulfilled chunk calls whose trimmed text is non-empty, in original chunk
order; the request fails with the all-chunks-failed error exactly when
no fulfilled chunk produced non-empty trimmed text (so it can fail even
though calls succeeded, if all their transcripts are empty/whitespace);
and the response carries the partialFailure note naming the rejected
chunks' 1-based indices out of the total chunk count exactly when some
chunk was rejected (and some chunk produced text). -/
theorem C2_chunkedMerge (settled : List SettledResult) :
    (mergeChunkResults settled = .error "음성 변환에 실패했습니다. 다시 시도해주세요." ↔
      successTexts settled = []) ∧
    (successTexts settled = [] ↔
      ∀ v : String, SettledResult.fulfilled v ∈ settled → jsTrim v = "") ∧
    (successTexts settled ≠ [] →
      mergeChunkResults settled = .ok
        { transcript := String.intercalate " " (successTexts settled),
          partialFailure :=
            if failedIndicesFrom settled 0 = [] then none
            else some (partialFailureMsg (failedIndicesFrom settled 0) settled.length) }) := by
  have hacc := collectSettled_eq settled 0
  refine ⟨?_, ?_, ?_⟩
  · unfold mergeChunkResults
    rw [hacc]
    by_cases hnil : successTexts settled = []
    · simp [hnil]
    · simp [hnil, List.length_eq_zero]
  · rw [successTexts, List.filterMap_eq_nil_iff]
    constructor
    · intro h v hv
      have := h _ hv
      simp only [ite_eq_right_iff] at this
      by_cases hlen : 0 < (jsTrim v).length
      · exact absurd (this hlen) (by simp)
      · have hL : (jsTrim v).length = (jsTrim v).data.length := rfl
        have hlen0 : (jsTrim v).data.length = 0 := by omega
        have hd : (jsTrim v).data = [] := List.eq_nil_of_length_eq_zero hlen0
        exact String.ext (by rw [hd])
    · intro h r hr
      cases r with
      | fulfilled v => simp [h v hr]
      | rejected => rfl
  · intro hne
    unfold mergeChunkResults
    rw [hacc]
    have hlen : ¬ (successTexts settled).length = 0 := by
      simpa [List.length_eq_zero] using hne
    simp only [hlen, if_false]
    by_cases hf : failedIndicesFrom settled 0 = []
    · simp [hf]
    · simp [hf, List.length_pos.mpr hf]

theorem C2_counterexample :
    mergeChunkResults [SettledResult.fulfilled " "] =
      .error "음성 변환에 실패했습니다. 다시 시도해주세요." ∧
    SettledResult.rejected ∉ [SettledResult.fulfilled " "] := by decide

theorem C2_witness :
    mergeChunkResults settledSample =
      .ok { transcript := "a b",
            partialFailure := some "일부 구간(2/3)의 변환에 실패했습니다." } :=
  ((C2_chunkedMerge settledSample).2.2 (by decide)).trans (by decide)

/-- C3: `createSummary` advances to the next model exactly on a service
failure that is an `OpenAI.APIError` with status 404 or 400; on any
other outcome the result is fixed without consulting the rest of the
model list, with an API failure of any other status rethrown as that
`apiError` and any other thrown error rethrown as-is; and the
all-models-exhausted error occurs exactly when every model in the list
was rejected with status 404 or 400. -/
theorem C3_createSummary_fallback (env : String → ServiceOutcome) :
    (createSummary env = .error .allModelsExhausted ↔
      ∀ m ∈ GPT_MODELS, isSkipOutcome (env m)) ∧
    (∀ (model : String) (rest : List String), isSkipOutcome (env model) →
      tryModels env (model :: rest) = tryModels env rest) ∧
    (∀ (model : String) (rest₁ rest₂ : List String), ¬ isSkipOutcome (env model) →
      tryModels env (model :: rest₁) = tryModels env (model :: rest₂)) ∧
    (∀ (model : String) (rest : List String) (status : Option Nat),
      env model = .apiFailure status → ¬ isSkipOutcome (env model) →
      tryModels env (model :: rest) = .error (.apiError status)) ∧
    (∀ (model : String) (rest : List String) (message : String),
      env model = .failure message →
      tryModels env (model :: rest) = .error (.other message)) := by
  refine ⟨tryModels_exhausted_iff env GPT_MODELS, ?_, ?_, ?_, ?_⟩
  · intro model rest hskip
    rw [tryModels]
    rcases hskip with hm | hm <;> rw [hm] <;> simp [handleOutcome]
  · intro model rest₁ rest₂ hskip
    rw [tryModels, tryModels]
    exact handleOutcome_of_not_skip (env model) hskip _ _
  · intro model rest status henv hskip
    have hs : ¬ (status = some 404 ∨ status = some 400) := by
      intro hs
      exact hskip (by rcases hs with hs | hs <;> [left; right] <;> rw [henv, hs])
    rw [tryModels, henv]
    simp [handleOutcome, hs]
  · intro model rest message henv
    rw [tryModels, henv]
    rfl

theorem C3_witness :
    createSummary envAll404 = .error .allModelsExhausted :=
  (C3_createSummary_fallback envAll404).1.mpr (fun _ _ => Or.inl rfl)

/-- C4 (amended): when the tried model's call returns non-empty content
on which `JSON.parse` fails, `createSummary` does not fail: it returns a
degraded `Summary` whose `briefSummary` *and* `keyPoints` fields both
equal the raw response text, whose `participants`, `agreements` and
`legallySignificant` fields are fixed unavailable markers, and whose
`cautions` field tells the user manual review is required.  (The
original claim's "remaining fields are fixed markers" fails for
`keyPoints`: see the counterexample.  The code guards only `JSON.parse`
success, not the six-field shape: content that parses as JSON of the
wrong shape is returned as-is through the `as Summary` cast, modelled
here by the `parseable` outcome.) -/
theorem C4_degradedSummary (env : String → ServiceOutcome) (model : String)
    (rest : List String) (raw : String)
    (henv : env model = .response (some (.unparseable raw))) (hraw : raw ≠ "") :
    tryModels env (model :: rest) = .ok
      { briefSummary := raw,
        participants := "자동 분석 불가",
        keyPoints := raw,
        agreements := "확인된 사항 없음",
        legallySignificant := "확인된 사항 없음",
        cautions := "AI 응답 형식 오류로 자동 분석이 불가했습니다. 위 텍스트를 직접 확인해주세요." } := by
  rw [tryModels, henv]
  simp [handleOutcome, ModelContent.rawText, hraw, degradedSummary]

/-- C4 counterexample: on unparseable content the returned `Summary`'s
`keyPoints` field equals the raw response text, not a fixed
degraded/unavailable marker — it varies with the response. -/
theorem C4_counterexample :
    createSummary envUnparseableHello = .ok (degradedSummary "hello") ∧
    createSummary envUnparseableWorld = .ok (degradedSummary "world") ∧
    (degradedSummary "hello").keyPoints = "hello" ∧
    (degradedSummary "world").keyPoints = "world" ∧
    (degradedSummary "hello").keyPoints ≠ (degradedSummary "world").keyPoints := by
  refine ⟨rfl, rfl, rfl, rfl, by decide⟩

theorem C4_witness :
    tryModels envUnparseableHello ["gpt-5.2"] = .ok
      { briefSummary := "hello",
        participants := "자동 분석 불가",
        keyPoints := "hello",
        agreements := "확인된 사항 없음",
        legallySignificant := "확인된 사항 없음",
        cautions := "AI 응답 형식 오류로 자동 분석이 불가했습니다. 위 텍스트를 직접 확인해주세요." } :=
  C4_degradedSummary envUnparseableHello "gpt-5.2" [] "hello" rfl (by decide)

/-- C5 (amended): when the box parser reads a size field equal to 1
(extended 64-bit size) with at least 16 bytes available, it fails with
the UnsupportedSize error if the high 32-bit word of the extended size
is non-zero; but when fewer than 16 bytes remain at that position the
loop `break`s and the parser returns the boxes collected so far — it
does not fail (see the counterexample). -/
theorem C5_extendedSizeBox (buffer : List Nat) (offset fuel : Nat) :
    (offset + 8 ≤ buffer.length → readUInt32BE buffer offset = 1 →
      offset + 16 ≤ buffer.length → readUInt32BE buffer (offset + 8) ≠ 0 →
      parseBoxesFrom buffer (fuel + 1) offset = .error (.unsupportedSize offset)) ∧
    (offset + 8 ≤ buffer.length → readUInt32BE buffer offset = 1 →
      buffer.length < offset + 16 →
      parseBoxesFrom buffer (fuel + 1) offset = .ok []) := by
  constructor
  · intro h8 h1 h16 hhi
    have hrbh : readBoxHeader buffer offset = .error (.unsupportedSize offset) := by
      unfold readBoxHeader
      simp [h1, hhi, Nat.not_lt.mpr h16]
    simp only [parseBoxesFrom]
    rw [if_pos h8, hrbh]
    rfl
  · intro h8 h1 h16
    have hrbh : readBoxHeader buffer offset = .ok none := by
      unfold readBoxHeader
      simp [h1, h16]
    simp only [parseBoxesFrom]
    rw [if_pos h8, hrbh]
    rfl

theorem C5_counterexample :
    readUInt32BE [0, 0, 0, 1, 102, 116, 121, 112, 0, 0, 0, 0] 0 = 1 ∧
    ([0, 0, 0, 1, 102, 116, 121, 112, 0, 0, 0, 0] : List Nat).length < 16 ∧
    parseTopLevelBoxes [0, 0, 0, 1, 102, 116, 121, 112, 0, 0, 0, 0] = .ok [] := by
  decide

theorem C5_witness :
    parseBoxesFrom extendedSizeSample 17 0 = .error (.unsupportedSize 0) :=
  (C5_extendedSizeBox extendedSizeSample 0 16).1 (by decide) (by decide) (by decide)
    (by decide)

/-- C6: on a 3GP-branded ISO container (the `ftyp` check passes and
bytes [8, 12) start with `"3gp"`), any failure in the extraction chain
— a box-parsing or mdat-lookup error from `extract3gpAmrData`, or a
codec failure on the extracted AMR stream — makes
`prepareAudioForWhisper` return the original input bytes unchanged with
the generic container name and MIME type (`"audio.mp4"`,
`"audio/mp4"`) instead of propagating the failure. -/
theorem C6_3gpFallback (amrToWav : List Nat → Option (List Nat))
    (inputBuffer : List Nat) (originalFileName : String)
    (hmp4 : isMp4Container inputBuffer = true)
    (h3gp : startsWith3gp inputBuffer = true)
    (hfail : (∃ e, extract3gpAmrData inputBuffer = .error e) ∨
      (∃ amrBuffer, extract3gpAmrData inputBuffer = .ok amrBuffer ∧
        amrToWav amrBuffer = none)) :
    prepareAudioForWhisper amrToWav inputBuffer originalFileName =
      .ok { buffer := inputBuffer, name := "audio.mp4", type := "audio/mp4" } := by
  have hnotamr : ¬ isAmrFile inputBuffer = true :=
    fun h => not_amr_and_mp4 inputBuffer ⟨h, hmp4⟩
  unfold prepareAudioForWhisper
  rw [if_neg hnotamr, if_pos hmp4, if_pos h3gp]
  rcases hfail with ⟨e, he⟩ | ⟨amrBuffer, hamr, hnone⟩
  · rw [he]
  · rw [hamr]
    simp [convertAmrToWav, hnone]

theorem C6_witness :
    prepareAudioForWhisper codecNone threeGpSample "rec.3gp" =
      .ok { buffer := threeGpSample, name := "audio.mp4", type := "audio/mp4" } :=
  C6_3gpFallback codecNone threeGpSample "rec.3gp" (by decide) (by decide)
    (Or.inl ⟨.noMdat, by decide⟩)

/-- C7: on a codec-native buffer (AMR magic header), a codec failure
(`AMR.toWAV` returning null) makes `prepareAudioForWhisper` fail with
the codec-decode error; no fallback `PreparedAudio` is produced on this
direct path. -/
theorem C7_codecNativeFailure (amrToWav : List Nat → Option (List Nat))
    (inputBuffer : List Nat) (originalFileName : String)
    (hamr : isAmrFile inputBuffer = true) (hcodec : amrToWav inputBuffer = none) :
    prepareAudioForWhisper amrToWav inputBuffer originalFileName =
      .error .codecDecode := by
  unfold prepareAudioForWhisper convertAmrToWav
  rw [if_pos hamr, hcodec]

theorem C7_witness :
    prepareAudioForWhisper codecNone amrSampleBuffer "rec.amr" =
      .error .codecDecode :=
  C7_codecNativeFailure codecNone amrSampleBuffer "rec.amr" (by decide) rfl

/-- C8: when the walk of `parseTopLevelBoxes` reaches a box whose
declared total size is less than its header size, it fails with the
MalformedBox error; and every `Box` it does return was validated, i.e.
its payload size is the declared total size minus the header size with
`headerSize ≤ totalBoxSize` (so `payloadSize ≥ 0` without truncation). -/
theorem C8_malformedBox (buffer : List Nat) :
    (∀ offset fuel headerSize totalBoxSize,
      offset + 8 ≤ buffer.length →
      readBoxHeader buffer offset = .ok (some (headerSize, totalBoxSize)) →
      totalBoxSize < headerSize →
      parseBoxesFrom buffer (fuel + 1) offset =
        .error (.malformedBox offset totalBoxSize headerSize)) ∧
    (∀ fuel offset boxes, parseBoxesFrom buffer fuel offset = .ok boxes →
      ∀ b ∈ boxes, ∃ headerSize totalBoxSize,
        readBoxHeader buffer b.start = .ok (some (headerSize, totalBoxSize)) ∧
        b.headerSize = headerSize ∧ headerSize ≤ totalBoxSize ∧
        b.payloadSize = totalBoxSize - headerSize) := by
  constructor
  · intro offset fuel headerSize totalBoxSize h8 hrbh hlt
    simp only [parseBoxesFrom]
    rw [if_pos h8, hrbh]
    simp [stepBox, hlt]
  · intro fuel
    induction fuel with
    | zero =>
      intro offset boxes h
      obtain rfl : ([] : List Box) = boxes := by
        simpa [parseBoxesFrom] using h
      simp
    | succ n ih =>
      intro offset boxes h
      simp only [parseBoxesFrom] at h
      by_cases h8 : offset + 8 ≤ buffer.length
      · rw [if_pos h8] at h
        rcases hrbh : readBoxHeader buffer offset with e | hdr
        · rw [hrbh] at h
          exact absurd h (by simp [stepBox])
        · rw [hrbh] at h
          cases hdr with
          | none =>
            obtain rfl : ([] : List Box) = boxes := by simpa [stepBox] using h
            simp
          | some p =>
            obtain ⟨headerSize, totalBoxSize⟩ := p
            simp only [stepBox] at h
            by_cases hlt : totalBoxSize < headerSize
            · rw [if_pos hlt] at h
              exact absurd h (by simp)
            · rw [if_neg hlt] at h
              rcases hrec : parseBoxesFrom buffer n (offset + totalBoxSize) with e | rest
              · rw [hrec] at h
                exact absurd h (by simp [Except.map])
              · rw [hrec] at h
                simp only [Except.map] at h
                obtain rfl := (Except.ok.inj h).symm
                intro b hb
                rcases List.mem_cons.mp hb with rfl | hb
                · exact ⟨headerSize, totalBoxSize, hrbh, rfl, Nat.le_of_not_lt hlt, rfl⟩
                · exact ih _ _ hrec b hb
      · rw [if_neg h8] at h
        obtain rfl : ([] : List Box) = boxes := by simpa using h
        simp

theorem C8_witness :
    parseBoxesFrom malformedSample 1 0 = .error (.malformedBox 0 4 8) :=
  (C8_malformedBox malformedSample).1 0 0 8 4 (by decide) (by decide) (by decide)

/-- C9 (amended): `isAmrFile` is true iff the buffer has at least 6
bytes and its first 6 bytes, after Node's `ascii` decoding unsets each
byte's highest bit, equal `"#!AMR\n"`; `isMp4Container` is true iff the
buffer has at least 8 bytes and bytes [4, 8), likewise masked, equal
`"ftyp"`; and the two predicates are mutually exclusive.  (The original
claim's unmasked byte comparison fails on bytes with the high bit set:
see the counterexample.) -/
theorem C9_containerSniffer (buffer : List Nat) :
    (isAmrFile buffer = true ↔
      6 ≤ buffer.length ∧ (buffer.take 6).map (fun x => x % 128) = amrMagic) ∧
    (isMp4Container buffer = true ↔
      8 ≤ buffer.length ∧ ((buffer.take 8).drop 4).map (fun x => x % 128) = ftypTag) ∧
    ¬ (isAmrFile buffer = true ∧ isMp4Container buffer = true) := by
  refine ⟨?_, ?_, not_amr_and_mp4 buffer⟩
  · rw [isAmrFile, Bool.and_eq_true, decide_eq_true_eq, decide_eq_true_eq]
    unfold asciiSlice
    rw [List.drop_zero]
  · rw [isMp4Container, Bool.and_eq_true, decide_eq_true_eq, decide_eq_true_eq]
    rfl

theorem C9_counterexample :
    isAmrFile [163, 33, 65, 77, 82, 10] = true ∧
    ¬ (([163, 33, 65, 77, 82, 10] : List Nat).take 6 = amrMagic) := by decide

theorem C9_witness :
    isAmrFile [35, 33, 65, 77, 82, 10] = true :=
  (C9_containerSniffer [35, 33, 65, 77, 82, 10]).1.mpr (by decide)

end VoicePipeline
